import Mathlib

/-!
Verification of the `pygamelib/gfx/ui.py` UI module against its
natural-language specification.

The module is shallowly embedded: widget state is carried in explicit
structures, Python `int` arithmetic is `Int` with the exact division
operators Python uses (`int(a / b)` is truncation toward zero of the
exact quotient, `round(a / b)` is round-half-to-even), buffer mutation
is represented as an ordered list of cell writes applied to a buffer
function, raised exceptions become `Except` errors, and the key-driven
`show()` loops become recursive functions over a list of key events.
-/

namespace PygamelibUi

/-- Python `int(a / b)` on integer operands: truncation toward zero of the
exact quotient (the float division is idealized as exact). -/
def pyTruncDiv (a b : Int) : Int := Int.tdiv a b

/-- Python `int(n / 2)` for an integer `n`: truncation toward zero of the
exact half. -/
def pyTruncHalf (n : Int) : Int := Int.tdiv n 2

/-- Python `round(n / 2)` for an integer `n`: round-half-to-even of the
exact half. -/
def pyRoundHalf (n : Int) : Int :=
  if n % 2 = 0 then Int.tdiv n 2
  else
    let k := Int.fdiv n 2
    if k % 2 = 0 then k else k + 1

/-- Colors are opaque identities (the claims never compute with channels). -/
abbrev Color := Nat

/-- `core.Sprixel(model, bg_color, fg_color)`: one buffer cell. -/
structure Sprixel where
  model : String
  bgColor : Option Color
  fgColor : Option Color
deriving DecidableEq

/-- `UiConfig`: the style bundle (the `game` reference is omitted; it only
serves to reach the screen, whose calls we record as explicit effects). -/
structure UiConfig where
  boxVerticalBorder : String
  boxHorizontalBorder : String
  boxTopLeftCorner : String
  boxTopRightCorner : String
  boxBottomLeftCorner : String
  boxBottomRightCorner : String
  fgColor : Color
  bgColor : Color
  borderFgColor : Color
  borderBgColor : Option Color
  borderlessDialog : Bool
deriving DecidableEq

/-- A concrete config used by concrete-input theorems. -/
def cfg0 : UiConfig :=
  { boxVerticalBorder := "|"
    boxHorizontalBorder := "-"
    boxTopLeftCorner := "1"
    boxTopRightCorner := "2"
    boxBottomLeftCorner := "3"
    boxBottomRightCorner := "4"
    fgColor := 10
    bgColor := 11
    borderFgColor := 12
    borderBgColor := none
    borderlessDialog := true }

/-- One buffer assignment `buffer[row][column] = sprixel`. -/
abbrev Write := Int × Int × Sprixel

/-- The externally owned 2-D cell buffer, addressed `(row, column)`. -/
abbrev Buffer := Int → Int → Sprixel

/-- Apply an ordered list of cell writes to a buffer (later writes win). -/
def applyWrites (b : Buffer) (ws : List Write) : Buffer :=
  ws.foldl (fun acc w => fun r c => if r = w.1 ∧ c = w.2.1 then w.2.2 else acc r c) b

/-- Writes of `for c in range(a, a + n): buffer[r][c] = cell`. -/
def hFillN (r a : Int) (cell : Sprixel) : Nat → List Write
  | 0 => []
  | n + 1 => hFillN r a cell n ++ [(r, a + (n : Int), cell)]

/-- Writes of `for c in range(a, bnd): buffer[r][c] = cell`. -/
def hFill (r a bnd : Int) (cell : Sprixel) : List Write :=
  hFillN r a cell (bnd - a).toNat

/-- Writes of `for r in range(1, 1 + n)` stamping both edge columns. -/
def vFillN (row colL colR : Int) (cell : Sprixel) : Nat → List Write
  | 0 => []
  | n + 1 =>
    vFillN row colL colR cell n
      ++ [(row + 1 + (n : Int), colL, cell), (row + 1 + (n : Int), colR, cell)]

/-- Modelled from the spec (§6, text/sprite primitives, which live outside
`src/`): `core.Sprite.from_text(text).render_to_buffer` stamps one cell per
character of the text run at consecutive columns, carrying the run's
colors. -/
def textWrites (r c0 : Int) (fg : Color) (bg : Option Color) : List Char → List Write
  | [] => []
  | ch :: rest => (r, c0, ⟨String.singleton ch, bg, some fg⟩) :: textWrites r (c0 + 1) fg bg rest

/-- Effects observable outside a widget: a full `_build_cache` call, and a
`config.game.screen.trigger_rendering()` re-render request. -/
inductive Effect where
  | cacheRebuild
  | renderRequest
deriving DecidableEq

/-- Exceptions the embedded fragment can raise. `zeroDivisionError` is
Python's built-in division-by-zero exception (propagating uncaught);
`pglInvalidTypeException` is the library's own typed invalid-argument
error raised by validating setters. -/
inductive PyErr where
  | zeroDivisionError
  | pglInvalidTypeException
deriving DecidableEq

/-- Modelled from the spec (§7): the spec's "defined, typed domain error"
means an error type the implementation itself defines and raises on
purpose (the `Pgl*Exception` family used by every validating setter); a
built-in `ZeroDivisionError` escaping from unguarded arithmetic is not
one. -/
def PyErr.isLibraryDefinedDomainError : PyErr → Bool
  | .pglInvalidTypeException => true
  | .zeroDivisionError => false

/-- `ProgressBar` state: public attributes plus the two cached cells. -/
structure PBState where
  value : Int
  maximum : Int
  width : Int
  progressMarker : String
  emptyMarker : String
  config : UiConfig
  cacheProgress : Sprixel
  cacheEmpty : Sprixel
deriving DecidableEq

/-- `ProgressBar._build_cache` (markers held as plain strings, so the
non-`Sprixel` branches apply): rebuild `pb_empty` and `pb_progress` from
the markers and the config colors. -/
def pbBuildCache (s : PBState) : PBState :=
  { s with
    cacheEmpty := ⟨s.emptyMarker, some s.config.bgColor, some s.config.fgColor⟩
    cacheProgress := ⟨s.progressMarker, some s.config.bgColor, some s.config.fgColor⟩ }

/-- `ProgressBar.__init__`: store the attributes, then build the cache. -/
def pbInit (value maximum width : Int) (progressMarker emptyMarker : String)
    (config : UiConfig) : PBState :=
  pbBuildCache
    ⟨value, maximum, width, progressMarker, emptyMarker, config, ⟨"", none, none⟩, ⟨"", none, none⟩⟩

/-- `ProgressBar.value` setter: stores the value (no cache rebuild) and
requests a re-render. -/
def pbValueSet (s : PBState) (v : Int) : PBState × List Effect :=
  ({ s with value := v }, [.renderRequest])

/-- `ProgressBar.progress_marker` setter, str branch: store the marker,
patch the cached cell's text, rebuild the cache, request a re-render. -/
def pbProgressMarkerSet (s : PBState) (v : String) : PBState × List Effect :=
  (pbBuildCache
      { s with progressMarker := v, cacheProgress := { s.cacheProgress with model := v } },
    [.cacheRebuild, .renderRequest])

/-- `ProgressBar.empty_marker` setter, str branch. -/
def pbEmptyMarkerSet (s : PBState) (v : String) : PBState × List Effect :=
  (pbBuildCache
      { s with emptyMarker := v, cacheEmpty := { s.cacheEmpty with model := v } },
    [.cacheRebuild, .renderRequest])

/-- `ProgressBar.empty_marker` getter: the source returns
`self.__progress_marker` (ui.py line 367). -/
def pbEmptyMarkerGet (s : PBState) : String := s.progressMarker

/-- `ProgressBar.progress_marker` getter. -/
def pbProgressMarkerGet (s : PBState) : String := s.progressMarker

/-- `prog = min(int((value * width) / maximum), width)` (ui.py line 415). -/
def pbProg (s : PBState) : Int := min (pyTruncDiv (s.value * s.width) s.maximum) s.width

/-- The two write loops of `ProgressBar.render_to_buffer`:
`for c in range(0, prog)` with the cached progress cell, then
`for c in range(prog, width)` with the cached empty cell. -/
def pbRenderWrites (s : PBState) (row column : Int) : List Write :=
  hFill row column (column + pbProg s) s.cacheProgress
    ++ hFill row (column + pbProg s) (column + s.width) s.cacheEmpty

/-- `ProgressBar.render_to_buffer`: Python's `(value * width) / maximum`
raises `ZeroDivisionError` when `maximum == 0`; otherwise the two fill
loops run. -/
def pbRenderToBuffer (s : PBState) (row column : Int) : Except PyErr (List Write) :=
  if s.maximum = 0 then .error .zeroDivisionError
  else .ok (pbRenderWrites s row column)


/-- The cells `Box._build_cache` precomputes. The corner cross-assignment
of the source is preserved: the cache entry named `top_right_corner` is
built from `config.box_top_left_corner`, `top_left_corner` from
`config.box_top_right_corner`, `bottom_right_corner` from
`config.box_bottom_left_corner`, and `bottom_left_corner` from
`config.box_bottom_right_corner` (ui.py lines 139-158). The title (str
branch) is wrapped into a `Text` carrying the border colors. -/
structure BoxCache where
  dialogVerticalBorder : Sprixel
  dialogHorizontalBorder : Sprixel
  topRightCorner : Sprixel
  topLeftCorner : Sprixel
  bottomRightCorner : Sprixel
  bottomLeftCorner : Sprixel
  title : String
  titleFg : Color
  titleBg : Option Color
deriving DecidableEq

/-- `Box._build_cache`. -/
def boxBuildCache (config : UiConfig) (title : String) : BoxCache :=
  { dialogVerticalBorder :=
      ⟨config.boxVerticalBorder, config.borderBgColor, some config.borderFgColor⟩
    dialogHorizontalBorder :=
      ⟨config.boxHorizontalBorder, config.borderBgColor, some config.borderFgColor⟩
    topRightCorner :=
      ⟨config.boxTopLeftCorner, config.borderBgColor, some config.borderFgColor⟩
    topLeftCorner :=
      ⟨config.boxTopRightCorner, config.borderBgColor, some config.borderFgColor⟩
    bottomRightCorner :=
      ⟨config.boxBottomLeftCorner, config.borderBgColor, some config.borderFgColor⟩
    bottomLeftCorner :=
      ⟨config.boxBottomRightCorner, config.borderBgColor, some config.borderFgColor⟩
    title := title
    titleFg := config.borderFgColor
    titleBg := config.borderBgColor }

/-- `Box.render_to_buffer` as its ordered list of cell writes (ui.py lines
225-268). The `self._cache["title"] == ""` test is modelled from the spec
as emptiness of the title text (the `base.Text` equality lives outside
`src/`; §4.2: "No title: fill the entire top interior with the horizontal
border glyph"). Python float expressions reduce exactly:
`round(width/2 - t/2) = pyRoundHalf (width - t)` and
`int(width/2 - 1 - t/2) = pyTruncHalf (width - 2 - t)`. -/
def boxRenderWrites (width height : Int) (cache : BoxCache) (row column : Int) : List Write :=
  let t : Int := cache.title.length
  [(row, column, cache.topRightCorner)]
    ++ (if cache.title = "" then
          hFill row (column + 1) (column + width - 1) cache.dialogHorizontalBorder
        else
          hFill row (column + 1) (column + 1 + pyRoundHalf (width - t))
              cache.dialogHorizontalBorder
            ++ textWrites row (column + 1 + pyTruncHalf (width - 2 - t)) cache.titleFg
                cache.titleBg cache.title.toList
            ++ hFill row (column + 1 + pyTruncHalf (width - 2 - t) + t)
                (column + 1 + pyTruncHalf (width - 2 - t) + t + pyTruncHalf (width - t))
                cache.dialogHorizontalBorder)
    ++ [(row, column + width - 1, cache.topLeftCorner)]
    ++ vFillN row column (column + width - 1) cache.dialogVerticalBorder (height - 2).toNat
    ++ [(row + height - 1, column, cache.bottomRightCorner)]
    ++ hFill (row + height - 1) (column + 1) (column + width - 1) cache.dialogHorizontalBorder
    ++ [(row + height - 1, column + width - 1, cache.bottomLeftCorner)]

/-- The buffer after a `Box` with the given config and title renders into
`b` at `(row, column)`. -/
def boxRender (config : UiConfig) (title : String) (b : Buffer)
    (row column width height : Int) : Buffer :=
  applyWrites b (boxRenderWrites width height (boxBuildCache config title) row column)

/-- A concrete buffer used by concrete-input theorems. -/
def b0 : Buffer := fun _ _ => ⟨" ", none, none⟩


/-- `ProgressDialog` public state (`label` carried as its text; the str
branches of the setters apply). `destroy` is the private `__destroy`
flag. -/
structure PDState where
  label : String
  value : Int
  maximum : Int
  width : Int
  progressMarker : String
  emptyMarker : String
  adaptiveWidth : Bool
  destroyOnComplete : Bool
  destroy : Bool
  config : UiConfig
deriving DecidableEq

/-- `ProgressDialog._cache`: the label text run, the sub-`ProgressBar`,
and, when the config is not borderless, the `Box(width, 2, label)`
parameters. -/
structure PDCache where
  label : String
  pb : PBState
  borders : Option (Int × Int × String)
deriving DecidableEq

/-- `ProgressDialog._build_cache` (ui.py 449-471): wrap the label, adapt
the width to the label length when `adaptive_width` is set (this mutates
`self.__width`, so the possibly-adjusted state is returned), rebuild the
sub-`ProgressBar`, and rebuild the borders box when the dialog is not
borderless. -/
def pdBuildCache (s : PDState) : PDState × PDCache :=
  let cl := s.label
  let s1 := if s.adaptiveWidth ∧ s.width ≠ (cl.length : Int)
            then { s with width := (cl.length : Int) } else s
  let pb := pbInit s1.value s1.maximum s1.width s1.progressMarker s1.emptyMarker s1.config
  let borders := if s1.config.borderlessDialog then none else some (s1.width, 2, cl)
  (s1, { label := cl, pb := pb, borders := borders })

/-- `ProgressDialog.__init__`: store the attributes, clear `__destroy`,
then build the cache. -/
def pdInit (label : String) (value maximum width : Int) (progressMarker emptyMarker : String)
    (adaptiveWidth destroyOnComplete : Bool) (config : UiConfig) : PDState × PDCache :=
  pdBuildCache
    ⟨label, value, maximum, width, progressMarker, emptyMarker,
      adaptiveWidth, destroyOnComplete, false, config⟩

/-- `ProgressDialog.label` setter, str branch (ui.py 490-504): store the
label, patch the cached text (immediately superseded), run a full
`_build_cache`, request a re-render. -/
def pdLabelSet (s : PDState) (c : PDCache) (v : String) : PDState × PDCache × List Effect :=
  let r := pdBuildCache { s with label := v }
  (r.1, r.2, [.cacheRebuild, .renderRequest])

/-- `ProgressDialog.value` setter (ui.py 510-519): store the value, assign
`self._cache["pb"].value` (running the `ProgressBar.value` setter, which
itself requests a re-render), then request a re-render. No `_build_cache`
call occurs. -/
def pdValueSet (s : PDState) (c : PDCache) (v : Int) : PDState × PDCache × List Effect :=
  let pbr := pbValueSet c.pb v
  ({ s with value := v }, { c with pb := pbr.1 }, pbr.2 ++ [.renderRequest])

/-- `ProgressDialog.maximum` setter (ui.py 525-534): store the maximum,
run a full `_build_cache`, request a re-render. -/
def pdMaximumSet (s : PDState) (c : PDCache) (v : Int) : PDState × PDCache × List Effect :=
  let r := pdBuildCache { s with maximum := v }
  (r.1, r.2, [.cacheRebuild, .renderRequest])

/-- Cache consistency: rebuilding from the current public state reproduces
the state (no pending width adjustment) and the cache. -/
def pdConsistent (s : PDState) (c : PDCache) : Prop := pdBuildCache s = (s, c)

instance (s : PDState) (c : PDCache) : Decidable (pdConsistent s c) :=
  inferInstanceAs (Decidable (pdBuildCache s = (s, c)))

/-- The cell writes a `ProgressDialog` render performs: a fresh
`Box(width + 2, 4)` unless borderless, the label text run, and the cached
progress bar, at the offsets of ui.py 536-552. -/
def pdWrites (s : PDState) (c : PDCache) (row column : Int) : List Write :=
  let offset : Int := if s.config.borderlessDialog then 0 else 1
  (if s.config.borderlessDialog then []
   else boxRenderWrites (s.width + 2) 4 (boxBuildCache s.config "") row column)
    ++ textWrites (row + offset) (column + offset) s.config.fgColor (some s.config.bgColor)
        c.label.toList
    ++ pbRenderWrites c.pb (row + 1 + offset) (column + offset)

/-- `ProgressDialog.render_to_buffer` (ui.py 536-559): raises
`ZeroDivisionError` out of the progress-bar render when its maximum is 0;
otherwise, when the destroy flag is set a `screen.delete(row, column)`
request is issued — and the cells are still drawn afterwards; finally,
when `destroy_on_complete` holds and `value == maximum`, the destroy flag
is armed (after drawing). Returns the updated state, the delete requests,
and the writes. -/
def pdRenderToBuffer (s : PDState) (c : PDCache) (row column : Int) :
    Except PyErr (PDState × List (Int × Int) × List Write) :=
  if c.pb.maximum = 0 then .error .zeroDivisionError
  else
    .ok ((if s.destroyOnComplete ∧ s.value = s.maximum then { s with destroy := true } else s),
      (if s.destroy then [(row, column)] else []),
      pdWrites s c row column)


/-- A decoded key event from the terminal: the named keys the show loops
test (`KEY_ENTER`, `KEY_ESCAPE`, `KEY_BACKSPACE`, `KEY_DELETE`,
`KEY_TAB`), a plain character key, or a poll timeout (`term.inkey`
returning the empty keystroke). -/
inductive Key where
  | enter
  | escape
  | backspace
  | delete
  | tab
  | char (c : Char)
  | noKey
deriving DecidableEq

/-- The two input filters of `pygamelib.constants` the dialogs compare
against (`PRINTABLE_FILTER` / `INTEGER_FILTER`; the constants module is
outside `src/`, modelled from the spec's "printable | digit" filter
kinds). -/
inductive InputFilter where
  | printable
  | integer
deriving DecidableEq

/-- ASCII fragment of Python's `str.isprintable` (sufficient for the
claims, which only feed ASCII keys). -/
def pyIsPrintable (c : Char) : Bool := 0x20 ≤ c.toNat && c.toNat ≤ 0x7E

/-- ASCII fragment of Python's `str.isdigit`. -/
def pyIsDigit (c : Char) : Bool := c.isDigit

/-- The filter test of the show loops: printable filter accepts printable
characters, integer filter accepts digits. -/
def keyAccepted (f : InputFilter) (c : Char) : Bool :=
  match f with
  | .printable => pyIsPrintable c
  | .integer => pyIsDigit c

/-- `LineInputDialog.show` (ui.py 642-666) as a function of the key
sequence the terminal will deliver, starting from the current
`user_input` buffer (initialized to the default): Enter returns the
buffer, Escape clears it and returns, Backspace/Delete drop the last
character (`user_input[:-1]`), an accepted character is appended, named
keys failing every test (such as Tab) and poll timeouts are ignored.
`none` means the loop is still polling when the sequence runs out. -/
def liShow (f : InputFilter) : String → List Key → Option String
  | _, [] => none
  | buf, k :: ks =>
    match k with
    | .enter => some buf
    | .escape => some ""
    | .backspace => liShow f (buf.dropRight 1) ks
    | .delete => liShow f (buf.dropRight 1) ks
    | .tab => liShow f buf ks
    | .char c =>
      if keyAccepted f c then liShow f (buf.push c) ks
      else liShow f buf ks
    | .noKey => liShow f buf ks

/-- One field of a `MultiLineInputDialog`: label, default, filter and the
live `user_input` entry of the field dict. -/
structure MField where
  label : String
  defaultText : String
  filter : InputFilter
  userInput : String
deriving DecidableEq

/-- `MultiLineInputDialog._build_cache` sets `field["user_input"] =
field["default"]` for every field. -/
def mFieldInit (label defaultText : String) (f : InputFilter) : MField :=
  ⟨label, defaultText, f, defaultText⟩

/-- Result of `MultiLineInputDialog.show`: the returned field collection,
`waiting` when the key sequence runs out with the loop still polling, or
`pyError` where Python would raise (`% 0` on an empty field list, or
indexing `fields[current]` out of range). -/
inductive MLOutcome where
  | returned (fields : List MField)
  | waiting
  | pyError
deriving DecidableEq

/-- `MultiLineInputDialog.show` (ui.py 758-798) on a key sequence, with
the current-field index explicit (`show` starts it at 0): Enter returns
the fields, Tab advances `current = (current + 1) % len(fields)`, Escape
clears every field's `user_input` and returns, Backspace/Delete drop the
last character of the current field only, an accepted character is
appended to the current field only, timeouts are ignored. -/
def mlShow : List MField → Nat → List Key → MLOutcome
  | _, _, [] => .waiting
  | fields, cur, k :: ks =>
    match k with
    | .enter => .returned fields
    | .tab =>
      if fields.length = 0 then .pyError
      else mlShow fields ((cur + 1) % fields.length) ks
    | .escape => .returned (fields.map fun f => { f with userInput := "" })
    | .backspace =>
      match fields.get? cur with
      | none => .pyError
      | some f => mlShow (fields.set cur { f with userInput := f.userInput.dropRight 1 }) cur ks
    | .delete =>
      match fields.get? cur with
      | none => .pyError
      | some f => mlShow (fields.set cur { f with userInput := f.userInput.dropRight 1 }) cur ks
    | .char c =>
      match fields.get? cur with
      | none => .pyError
      | some f =>
        if keyAccepted f.filter c then
          mlShow (fields.set cur { f with userInput := f.userInput.push c }) cur ks
        else mlShow fields cur ks
    | .noKey => mlShow fields cur ks

-- Helper lemmas and claim theorems follow.

theorem applyWrites_nil (b : Buffer) : applyWrites b [] = b := rfl

theorem applyWrites_cons (b : Buffer) (w : Write) (ws : List Write) :
    applyWrites b (w :: ws) =
      applyWrites (fun r c => if r = w.1 ∧ c = w.2.1 then w.2.2 else b r c) ws := rfl

theorem applyWrites_append (b : Buffer) (ws₁ ws₂ : List Write) :
    applyWrites b (ws₁ ++ ws₂) = applyWrites (applyWrites b ws₁) ws₂ := by
  simp [applyWrites, List.foldl_append]

theorem applyWrites_singleton (b : Buffer) (w : Write) (r c : Int) :
    applyWrites b [w] r c = if r = w.1 ∧ c = w.2.1 then w.2.2 else b r c := rfl

theorem applyWrites_of_forall_ne (b : Buffer) (ws : List Write) (r c : Int)
    (h : ∀ w ∈ ws, ¬(r = w.1 ∧ c = w.2.1)) : applyWrites b ws r c = b r c := by
  induction ws generalizing b with
  | nil => rfl
  | cons w ws ih =>
    rw [applyWrites_cons, ih _ (fun w' hw' => h w' (List.mem_cons_of_mem _ hw'))]
    have := h w (List.mem_cons_self _ _)
    simp only [if_neg this]

theorem applyWrites_hFillN (b : Buffer) (r a : Int) (cell : Sprixel) (n : Nat) (r' c' : Int) :
    applyWrites b (hFillN r a cell n) r' c' =
      if r' = r ∧ a ≤ c' ∧ c' < a + (n : Int) then cell else b r' c' := by
  induction n with
  | zero =>
    rw [hFillN, applyWrites_nil]
    have : ¬(r' = r ∧ a ≤ c' ∧ c' < a + ((0 : Nat) : Int)) := by
      push_cast; omega
    rw [if_neg this]
  | succ n ih =>
    rw [hFillN, applyWrites_append, applyWrites_singleton, ih]
    by_cases h1 : r' = r ∧ c' = a + (n : Int)
    · rw [if_pos h1]
      have : r' = r ∧ a ≤ c' ∧ c' < a + ((n + 1 : Nat) : Int) := by push_cast; omega
      rw [if_pos this]
    · rw [if_neg h1]
      by_cases h2 : r' = r ∧ a ≤ c' ∧ c' < a + (n : Int)
      · rw [if_pos h2]
        have : r' = r ∧ a ≤ c' ∧ c' < a + ((n + 1 : Nat) : Int) := by push_cast at *; omega
        rw [if_pos this]
      · rw [if_neg h2]
        have : ¬(r' = r ∧ a ≤ c' ∧ c' < a + ((n + 1 : Nat) : Int)) := by
          push_cast at *; rcases Decidable.em (r' = r) with hr | hr
          · subst hr; omega
          · tauto
        rw [if_neg this]

theorem applyWrites_hFill (b : Buffer) (r a bnd : Int) (cell : Sprixel) (r' c' : Int) :
    applyWrites b (hFill r a bnd cell) r' c' =
      if r' = r ∧ a ≤ c' ∧ c' < bnd then cell else b r' c' := by
  rw [hFill, applyWrites_hFillN]
  by_cases h1 : r' = r ∧ a ≤ c' ∧ c' < a + ((bnd - a).toNat : Int)
  · rw [if_pos h1, if_pos (by constructor; exact h1.1; omega)]
  · rw [if_neg h1]
    by_cases h2 : r' = r ∧ a ≤ c' ∧ c' < bnd
    · exfalso; apply h1; exact ⟨h2.1, h2.2.1, by omega⟩
    · rw [if_neg h2]

theorem mem_hFillN {w : Write} {r a : Int} {cell : Sprixel} {n : Nat}
    (h : w ∈ hFillN r a cell n) : w.1 = r ∧ a ≤ w.2.1 ∧ w.2.1 < a + (n : Int) := by
  induction n with
  | zero => simp [hFillN] at h
  | succ n ih =>
    rw [hFillN] at h
    rcases List.mem_append.1 h with h | h
    · have := ih h; push_cast; omega
    · simp only [List.mem_singleton] at h
      subst h; push_cast; omega

theorem mem_hFill {w : Write} {r a bnd : Int} {cell : Sprixel}
    (h : w ∈ hFill r a bnd cell) : w.1 = r ∧ a ≤ w.2.1 ∧ w.2.1 < bnd := by
  have := mem_hFillN h
  refine ⟨this.1, this.2.1, ?_⟩
  have := this.2.2; omega

theorem mem_vFillN {w : Write} {row colL colR : Int} {cell : Sprixel} {n : Nat}
    (h : w ∈ vFillN row colL colR cell n) :
    (w.2.1 = colL ∨ w.2.1 = colR) ∧ row + 1 ≤ w.1 ∧ w.1 < row + 1 + (n : Int) := by
  induction n with
  | zero => simp [vFillN] at h
  | succ n ih =>
    rw [vFillN] at h
    rcases List.mem_append.1 h with h | h
    · obtain ⟨h1, h2, h3⟩ := ih h
      refine ⟨h1, h2, ?_⟩
      push_cast at *
      omega
    · simp only [List.mem_cons, List.not_mem_nil, or_false] at h
      rcases h with h | h <;> subst h
      · refine ⟨Or.inl rfl, ?_, ?_⟩
        · show row + 1 ≤ row + 1 + (n : Int); omega
        · show row + 1 + (n : Int) < row + 1 + ((n + 1 : Nat) : Int); push_cast; omega
      · refine ⟨Or.inr rfl, ?_, ?_⟩
        · show row + 1 ≤ row + 1 + (n : Int); omega
        · show row + 1 + (n : Int) < row + 1 + ((n + 1 : Nat) : Int); push_cast; omega

theorem mem_textWrites {w : Write} {r c0 : Int} {fg : Color} {bg : Option Color} {l : List Char}
    (h : w ∈ textWrites r c0 fg bg l) :
    w.1 = r ∧ c0 ≤ w.2.1 ∧ w.2.1 < c0 + (l.length : Int) := by
  induction l generalizing c0 with
  | nil => simp [textWrites] at h
  | cons ch rest ih =>
    rw [textWrites] at h
    rcases List.mem_cons.1 h with h | h
    · subst h
      refine ⟨rfl, le_refl _, ?_⟩
      show c0 < c0 + ((rest.length + 1 : Nat) : Int); push_cast; omega
    · obtain ⟨h1, h2, h3⟩ := ih h
      refine ⟨h1, by omega, ?_⟩
      simp only [List.length_cons] at *
      push_cast at *
      omega

/-- Helper: `hFillN` as a mapped range, for indexing lemmas. -/
theorem hFillN_eq_map (r a : Int) (cell : Sprixel) (n : Nat) :
    hFillN r a cell n = (List.range n).map fun i : Nat => (r, a + (i : Int), cell) := by
  induction n with
  | zero => rfl
  | succ n ih => rw [hFillN, ih, List.range_succ, List.map_append]; rfl

theorem hFillN_length (r a : Int) (cell : Sprixel) (n : Nat) :
    (hFillN r a cell n).length = n := by
  rw [hFillN_eq_map, List.length_map, List.length_range]

theorem hFill_length (r a bnd : Int) (cell : Sprixel) :
    (hFill r a bnd cell).length = (bnd - a).toNat := hFillN_length ..

theorem hFillN_get? (r a : Int) (cell : Sprixel) (n i : Nat) (hi : i < n) :
    (hFillN r a cell n).get? i = some (r, a + (i : Int), cell) := by
  rw [hFillN_eq_map, List.get?_map, List.get?_range hi]; rfl

/-- C1 (amended to nonnegative `value` and `width`; the claim's "every
integer value" fails, see the counterexample): for `maximum > 0`,
`0 ≤ value` and `0 ≤ width`, `render_to_buffer` succeeds and writes
exactly `width` cells, all in the single row `row`; the cell written at
offset `i` from `column` is the cached filled cell when
`i < min(floor(value*width/maximum), width)` and the cached empty cell
otherwise. -/
theorem progressBar_render_fill_split (s : PBState) (row column : Int)
    (hm : 0 < s.maximum) (hv : 0 ≤ s.value) (hw : 0 ≤ s.width) :
    ∃ ws : List Write,
      pbRenderToBuffer s row column = .ok ws ∧
      ws.length = s.width.toNat ∧
      ∀ i : Nat, i < s.width.toNat →
        ws.get? i = some (row, column + (i : Int),
          if (i : Int) < min (Int.fdiv (s.value * s.width) s.maximum) s.width
          then s.cacheProgress else s.cacheEmpty) := by
  have hprog : pbProg s = min (Int.fdiv (s.value * s.width) s.maximum) s.width := by
    rw [pbProg, pyTruncDiv, Int.tdiv_eq_ediv (mul_nonneg hv hw) (le_of_lt hm),
      Int.fdiv_eq_ediv _ (le_of_lt hm)]
  have h0 : 0 ≤ pbProg s := by
    rw [pbProg]
    exact le_min (Int.tdiv_nonneg (mul_nonneg hv hw) (le_of_lt hm)) hw
  have h1 : pbProg s ≤ s.width := min_le_right _ _
  refine ⟨pbRenderWrites s row column, ?_, ?_, ?_⟩
  · rw [pbRenderToBuffer, if_neg (by omega)]
  · rw [pbRenderWrites, List.length_append, hFill_length, hFill_length]
    omega
  · intro i hi
    rw [pbRenderWrites, ← hprog]
    have hl1 : (hFill row column (column + pbProg s) s.cacheProgress).length
        = (pbProg s).toNat := by rw [hFill_length]; omega
    by_cases hcase : i < (pbProg s).toNat
    · rw [List.get?_append (by rw [hl1]; exact hcase)]
      rw [hFill]
      have he : (column + pbProg s - column).toNat = (pbProg s).toNat := by omega
      rw [he, hFillN_get? _ _ _ _ _ hcase, if_pos (by omega)]
    · rw [List.get?_append_right (by rw [hl1]; omega), hl1, hFill]
      have he : (column + s.width - (column + pbProg s)).toNat
          = s.width.toNat - (pbProg s).toNat := by omega
      rw [he, hFillN_get? _ _ _ _ _ (by omega)]
      have hc : (column + pbProg s) + ((i - (pbProg s).toNat : Nat) : Int)
          = column + (i : Int) := by omega
      rw [hc, if_neg (by omega)]

/-- Closed witness for `progressBar_render_fill_split` at value 7,
maximum 4, width 10. -/
theorem progressBar_render_fill_split_witness :
    0 < (pbInit 7 4 10 "#" "_" cfg0).maximum ∧
    0 ≤ (pbInit 7 4 10 "#" "_" cfg0).value ∧
    0 ≤ (pbInit 7 4 10 "#" "_" cfg0).width ∧
    ∃ ws : List Write,
      pbRenderToBuffer (pbInit 7 4 10 "#" "_" cfg0) 2 3 = .ok ws ∧
      ws.length = (pbInit 7 4 10 "#" "_" cfg0).width.toNat ∧
      ∀ i : Nat, i < (pbInit 7 4 10 "#" "_" cfg0).width.toNat →
        ws.get? i = some (2, 3 + (i : Int),
          if (i : Int) < min (Int.fdiv ((pbInit 7 4 10 "#" "_" cfg0).value
              * (pbInit 7 4 10 "#" "_" cfg0).width) (pbInit 7 4 10 "#" "_" cfg0).maximum)
              (pbInit 7 4 10 "#" "_" cfg0).width
          then (pbInit 7 4 10 "#" "_" cfg0).cacheProgress
          else (pbInit 7 4 10 "#" "_" cfg0).cacheEmpty) :=
  ⟨by decide, by decide, by decide,
    progressBar_render_fill_split _ 2 3 (by decide) (by decide) (by decide)⟩

/-- C1 counterexample: with `maximum = 2 > 0`, `width = 4` and the integer
value `-1`, `prog = min(int(-4 / 2), 4) = -2`, so the second loop
`for c in range(prog, width)` performs 6 writes: the render does not
write exactly `width = 4` cells. -/
theorem progressBar_negative_value_counterexample :
    pbRenderToBuffer (pbInit (-1) 2 4 "#" "_" cfg0) 0 0 =
      .ok (pbRenderWrites (pbInit (-1) 2 4 "#" "_" cfg0) 0 0) ∧
    (pbRenderWrites (pbInit (-1) 2 4 "#" "_" cfg0) 0 0).length = 6 ∧
    (pbInit (-1) 2 4 "#" "_" cfg0).width.toNat = 4 :=
  ⟨rfl, by decide, by decide⟩

/-- C4 (amended): rendering a `ProgressBar` whose `maximum` equals 0
deterministically raises Python's built-in `ZeroDivisionError`, which the
module leaves unguarded, so it propagates to the caller; no garbage
writes are produced. It is not one of the library's own typed domain
errors (see the counterexample). -/
theorem progressBar_zero_maximum_raises (s : PBState) (row column : Int)
    (h : s.maximum = 0) :
    pbRenderToBuffer s row column = .error .zeroDivisionError := by
  rw [pbRenderToBuffer, if_pos h]

/-- Closed witness for `progressBar_zero_maximum_raises`. -/
theorem progressBar_zero_maximum_raises_witness :
    (pbInit 5 0 4 "#" "_" cfg0).maximum = 0 ∧
    pbRenderToBuffer (pbInit 5 0 4 "#" "_" cfg0) 1 1 = .error .zeroDivisionError :=
  ⟨by decide, progressBar_zero_maximum_raises _ 1 1 (by decide)⟩

/-- C4 counterexample: the error escaping the `maximum == 0` render is the
unhandled built-in `ZeroDivisionError`, not a typed domain error the
library defines. -/
theorem progressBar_zero_maximum_counterexample :
    pbRenderToBuffer (pbInit 5 0 4 "#" "_" cfg0) 0 0 = .error .zeroDivisionError ∧
    PyErr.isLibraryDefinedDomainError .zeroDivisionError = false :=
  ⟨rfl, rfl⟩

/-- C9: the `empty_marker` getter returns `self.__progress_marker`; after
`pb.empty_marker = e` then `pb.progress_marker = p` with `p ≠ e`, reading
`empty_marker` yields `p`, while the internal empty-marker attribute is
`e` and the cached empty cell was rebuilt from `e`; the set-then-get
round-trip for `empty_marker` fails. -/
theorem progressBar_emptyMarker_getter_bug (s : PBState) (e p : String) (hne : p ≠ e) :
    pbEmptyMarkerGet (pbProgressMarkerSet (pbEmptyMarkerSet s e).1 p).1 = p ∧
    (pbProgressMarkerSet (pbEmptyMarkerSet s e).1 p).1.emptyMarker = e ∧
    (pbProgressMarkerSet (pbEmptyMarkerSet s e).1 p).1.cacheEmpty =
      ⟨e, some s.config.bgColor, some s.config.fgColor⟩ ∧
    pbEmptyMarkerGet (pbProgressMarkerSet (pbEmptyMarkerSet s e).1 p).1 ≠ e :=
  ⟨rfl, rfl, rfl, hne⟩

/-- Closed witness for `progressBar_emptyMarker_getter_bug`. -/
theorem progressBar_emptyMarker_getter_bug_witness :
    ("x" : String) ≠ "y" ∧
    pbEmptyMarkerGet
      (pbProgressMarkerSet (pbEmptyMarkerSet (pbInit 0 100 20 "#" "_" cfg0) "y").1 "x").1
      = "x" ∧
    (pbProgressMarkerSet (pbEmptyMarkerSet (pbInit 0 100 20 "#" "_" cfg0) "y").1 "x").1.emptyMarker
      = "y" ∧
    (pbProgressMarkerSet (pbEmptyMarkerSet (pbInit 0 100 20 "#" "_" cfg0) "y").1 "x").1.cacheEmpty
      = ⟨"y", some (pbInit 0 100 20 "#" "_" cfg0).config.bgColor,
          some (pbInit 0 100 20 "#" "_" cfg0).config.fgColor⟩ ∧
    pbEmptyMarkerGet
      (pbProgressMarkerSet (pbEmptyMarkerSet (pbInit 0 100 20 "#" "_" cfg0) "y").1 "x").1
      ≠ "y" :=
  ⟨by decide,
    (progressBar_emptyMarker_getter_bug (pbInit 0 100 20 "#" "_" cfg0) "y" "x" (by decide)).1,
    (progressBar_emptyMarker_getter_bug (pbInit 0 100 20 "#" "_" cfg0) "y" "x" (by decide)).2.1,
    (progressBar_emptyMarker_getter_bug (pbInit 0 100 20 "#" "_" cfg0) "y" "x" (by decide)).2.2.1,
    (progressBar_emptyMarker_getter_bug (pbInit 0 100 20 "#" "_" cfg0) "y" "x" (by decide)).2.2.2⟩

theorem applyWrites_single3 (b : Buffer) (wr wc : Int) (cell : Sprixel) (r c : Int) :
    applyWrites b [(wr, wc, cell)] r c = if r = wr ∧ c = wc then cell else b r c := rfl

theorem applyWrites_pair3 (b : Buffer) (r1 c1 : Int) (cell1 : Sprixel)
    (r2 c2 : Int) (cell2 : Sprixel) (r c : Int) :
    applyWrites b [(r1, c1, cell1), (r2, c2, cell2)] r c =
      if r = r2 ∧ c = c2 then cell2
      else if r = r1 ∧ c = c1 then cell1 else b r c := rfl

theorem applyWrites_vFillN (b : Buffer) (row colL colR : Int) (cell : Sprixel) (n : Nat)
    (r' c' : Int) :
    applyWrites b (vFillN row colL colR cell n) r' c' =
      if (c' = colL ∨ c' = colR) ∧ row + 1 ≤ r' ∧ r' < row + 1 + (n : Int) then cell
      else b r' c' := by
  induction n with
  | zero =>
    rw [vFillN, applyWrites_nil, if_neg]
    push_cast
    omega
  | succ n ih =>
    rw [vFillN, applyWrites_append, applyWrites_pair3, ih]
    split_ifs <;> first | rfl | (exfalso; push_cast at *; omega)

theorem pyTruncHalf_nonneg {n : Int} (h : -1 ≤ n) : 0 ≤ pyTruncHalf n := by
  rcases le_or_lt 0 n with h0 | h0
  · exact Int.tdiv_nonneg h0 (by omega)
  · have : n = -1 := by omega
    subst this
    decide

/-- Full characterization of the buffer after an empty-title `Box` render:
a write tower read from the last write backwards. -/
theorem boxRender_empty_title_char (config : UiConfig) (b : Buffer) (row column w h : Int)
    (r c : Int) :
    boxRender config "" b row column w h r c =
      if r = row + h - 1 ∧ c = column + w - 1 then
        ⟨config.boxBottomRightCorner, config.borderBgColor, some config.borderFgColor⟩
      else if r = row + h - 1 ∧ column + 1 ≤ c ∧ c < column + w - 1 then
        ⟨config.boxHorizontalBorder, config.borderBgColor, some config.borderFgColor⟩
      else if r = row + h - 1 ∧ c = column then
        ⟨config.boxBottomLeftCorner, config.borderBgColor, some config.borderFgColor⟩
      else if (c = column ∨ c = column + w - 1) ∧ row + 1 ≤ r ∧ r < row + 1 + ((h - 2).toNat : Int) then
        ⟨config.boxVerticalBorder, config.borderBgColor, some config.borderFgColor⟩
      else if r = row ∧ c = column + w - 1 then
        ⟨config.boxTopRightCorner, config.borderBgColor, some config.borderFgColor⟩
      else if r = row ∧ column + 1 ≤ c ∧ c < column + w - 1 then
        ⟨config.boxHorizontalBorder, config.borderBgColor, some config.borderFgColor⟩
      else if r = row ∧ c = column then
        ⟨config.boxTopLeftCorner, config.borderBgColor, some config.borderFgColor⟩
      else b r c := by
  simp only [boxRender, boxRenderWrites, boxBuildCache, if_true]
  repeat rw [applyWrites_append]
  simp only [applyWrites_single3, applyWrites_hFill, applyWrites_vFillN]

/-- C8: rendering a Box with an empty title over any buffer: the top and
bottom rows hold the horizontal-border cell on every interior column
(`column+1 .. column+width-2`) between the two corner cells, each side row
(`row+1 .. row+height-2`) holds the vertical-border cell exactly at the
two edge columns, and every strictly interior cell of the target region is
left unchanged. -/
theorem box_empty_title_frame (config : UiConfig) (b : Buffer) (row column w h : Int)
    (hw : 2 ≤ w) (hh : 2 ≤ h) :
    (∀ c : Int, column + 1 ≤ c → c ≤ column + w - 2 →
      boxRender config "" b row column w h row c
          = ⟨config.boxHorizontalBorder, config.borderBgColor, some config.borderFgColor⟩ ∧
      boxRender config "" b row column w h (row + h - 1) c
          = ⟨config.boxHorizontalBorder, config.borderBgColor, some config.borderFgColor⟩) ∧
    (∀ r : Int, row + 1 ≤ r → r ≤ row + h - 2 →
      boxRender config "" b row column w h r column
          = ⟨config.boxVerticalBorder, config.borderBgColor, some config.borderFgColor⟩ ∧
      boxRender config "" b row column w h r (column + w - 1)
          = ⟨config.boxVerticalBorder, config.borderBgColor, some config.borderFgColor⟩) ∧
    (∀ r c : Int, row + 1 ≤ r → r ≤ row + h - 2 → column + 1 ≤ c → c ≤ column + w - 2 →
      boxRender config "" b row column w h r c = b r c) := by
  refine ⟨fun c h1 h2 => ⟨?_, ?_⟩, fun r h1 h2 => ⟨?_, ?_⟩, fun r c h1 h2 h3 h4 => ?_⟩ <;>
    rw [boxRender_empty_title_char] <;>
    split_ifs <;> first | rfl | (exfalso; omega)

/-- Closed witness for `box_empty_title_frame` at the spec's example
`Box(width=10, height=3, title="")`. -/
theorem box_empty_title_frame_witness :
    2 ≤ (10 : Int) ∧ 2 ≤ (3 : Int) ∧
    ((∀ c : Int, 0 + 1 ≤ c → c ≤ 0 + 10 - 2 →
      boxRender cfg0 "" b0 0 0 10 3 0 c
          = ⟨cfg0.boxHorizontalBorder, cfg0.borderBgColor, some cfg0.borderFgColor⟩ ∧
      boxRender cfg0 "" b0 0 0 10 3 (0 + 3 - 1) c
          = ⟨cfg0.boxHorizontalBorder, cfg0.borderBgColor, some cfg0.borderFgColor⟩) ∧
    (∀ r : Int, 0 + 1 ≤ r → r ≤ 0 + 3 - 2 →
      boxRender cfg0 "" b0 0 0 10 3 r 0
          = ⟨cfg0.boxVerticalBorder, cfg0.borderBgColor, some cfg0.borderFgColor⟩ ∧
      boxRender cfg0 "" b0 0 0 10 3 r (0 + 10 - 1)
          = ⟨cfg0.boxVerticalBorder, cfg0.borderBgColor, some cfg0.borderFgColor⟩) ∧
    (∀ r c : Int, 0 + 1 ≤ r → r ≤ 0 + 3 - 2 → 0 + 1 ≤ c → c ≤ 0 + 10 - 2 →
      boxRender cfg0 "" b0 0 0 10 3 r c = b0 r c)) :=
  ⟨by norm_num, by norm_num, box_empty_title_frame cfg0 b0 0 0 10 3 (by norm_num) (by norm_num)⟩

/-- C3 (amended): for `Box(width=20, height=3, title="Hi")` the left fill
loop writes `round(20/2 - 2/2) = 9` horizontal-border cells at interior
columns 1-9, but the title is then rendered at columns
`1 + int(20/2 - 1 - 2/2) = 9` and 10, overwriting the ninth fill cell,
and the right fill loop writes `int(20/2 - 2/2) = 9` cells at columns
11-19 whose last is overwritten by the top-right corner write. The final
top row therefore shows: corner, 8 horizontal-border cells (columns 1-8),
the title at columns 9-10, 8 horizontal-border cells (columns 11-18),
corner — not the claimed 9 + title + 7 split covering each interior
column exactly once. -/
theorem box_title_top_row_layout :
    boxRender cfg0 "Hi" b0 0 0 20 3 0 0
        = ⟨cfg0.boxTopLeftCorner, cfg0.borderBgColor, some cfg0.borderFgColor⟩ ∧
    (∀ i ∈ List.range 8, boxRender cfg0 "Hi" b0 0 0 20 3 0 (1 + (i : Int))
        = ⟨cfg0.boxHorizontalBorder, cfg0.borderBgColor, some cfg0.borderFgColor⟩) ∧
    boxRender cfg0 "Hi" b0 0 0 20 3 0 9
        = ⟨"H", cfg0.borderBgColor, some cfg0.borderFgColor⟩ ∧
    boxRender cfg0 "Hi" b0 0 0 20 3 0 10
        = ⟨"i", cfg0.borderBgColor, some cfg0.borderFgColor⟩ ∧
    (∀ i ∈ List.range 8, boxRender cfg0 "Hi" b0 0 0 20 3 0 (11 + (i : Int))
        = ⟨cfg0.boxHorizontalBorder, cfg0.borderBgColor, some cfg0.borderFgColor⟩) ∧
    boxRender cfg0 "Hi" b0 0 0 20 3 0 19
        = ⟨cfg0.boxTopRightCorner, cfg0.borderBgColor, some cfg0.borderFgColor⟩ ∧
    pyRoundHalf (20 - 2) = 9 ∧ pyTruncHalf (20 - 2 - 2) = 8 ∧ pyTruncHalf (20 - 2) = 9 := by
  decide

/-- C3 counterexample: the ninth interior column of the top row (column 9,
which the claim assigns to the left fill segment, placing the title at
columns 10-11) actually holds the first title cell `H`, because the title
render starts at column `1 + int(20/2 - 1 - 2/2) = 9`, inside the
9-cell left fill segment; column 10 does not hold `H`. -/
theorem box_title_top_row_counterexample :
    boxRender cfg0 "Hi" b0 0 0 20 3 0 9
        = ⟨"H", cfg0.borderBgColor, some cfg0.borderFgColor⟩ ∧
    boxRender cfg0 "Hi" b0 0 0 20 3 0 9
        ≠ ⟨cfg0.boxHorizontalBorder, cfg0.borderBgColor, some cfg0.borderFgColor⟩ ∧
    boxRender cfg0 "Hi" b0 0 0 20 3 0 10
        ≠ ⟨"H", cfg0.borderBgColor, some cfg0.borderFgColor⟩ := by
  decide

/-- C10 (amended: requires `width ≥ 2`, `height ≥ 2` and a title that is
empty or of length at most `width - 1`; otherwise later writes can cover
the top-left corner, see the counterexample): the cache cross-assignment
(`top_right_corner` cache built from `config.box_top_left_corner`, etc.)
and the cross-placed render writes cancel, so the glyph configured as
`box_top_left_corner` ends at the visual top-left position `(row, column)`,
`box_top_right_corner` at `(row, column+width-1)`, `box_bottom_left_corner`
at `(row+height-1, column)` and `box_bottom_right_corner` at
`(row+height-1, column+width-1)`. -/
theorem box_corner_glyphs (config : UiConfig) (title : String) (b : Buffer)
    (row column w h : Int) (hw : 2 ≤ w) (hh : 2 ≤ h)
    (hfit : title = "" ∨ (title.length : Int) ≤ w - 1) :
    boxRender config title b row column w h row column
        = ⟨config.boxTopLeftCorner, config.borderBgColor, some config.borderFgColor⟩ ∧
    boxRender config title b row column w h row (column + w - 1)
        = ⟨config.boxTopRightCorner, config.borderBgColor, some config.borderFgColor⟩ ∧
    boxRender config title b row column w h (row + h - 1) column
        = ⟨config.boxBottomLeftCorner, config.borderBgColor, some config.borderFgColor⟩ ∧
    boxRender config title b row column w h (row + h - 1) (column + w - 1)
        = ⟨config.boxBottomRightCorner, config.borderBgColor, some config.borderFgColor⟩ := by
  by_cases ht : title = ""
  · subst ht
    refine ⟨?_, ?_, ?_, ?_⟩ <;> rw [boxRender_empty_title_char] <;>
      split_ifs <;> first | rfl | (exfalso; omega)
  · have hlen : (title.length : Int) ≤ w - 1 := hfit.resolve_left ht
    have hpt : 0 ≤ pyTruncHalf (w - 2 - (title.length : Int)) :=
      pyTruncHalf_nonneg (by omega)
    refine ⟨?_, ?_, ?_, ?_⟩
    · simp only [boxRender, boxRenderWrites, boxBuildCache]
      rw [if_neg ht]
      repeat rw [applyWrites_append]
      simp only [applyWrites_single3, applyWrites_hFill, applyWrites_vFillN, true_and,
        and_true, true_or, or_true, if_true]
      rw [if_neg (by omega), if_neg (by omega), if_neg (by omega), if_neg (by omega),
        if_neg (by omega), if_neg (by omega), applyWrites_of_forall_ne,
        applyWrites_hFill, if_neg (by omega), applyWrites_single3, if_pos ⟨rfl, rfl⟩]
      intro w' hw' hc
      have hm := mem_textWrites hw'
      omega
    · simp only [boxRender, boxRenderWrites, boxBuildCache]
      rw [if_neg ht]
      repeat rw [applyWrites_append]
      simp only [applyWrites_single3, applyWrites_hFill, applyWrites_vFillN, true_and,
        and_true, true_or, or_true, if_true]
      split_ifs <;> first | rfl | (exfalso; omega)
    · simp only [boxRender, boxRenderWrites, boxBuildCache]
      rw [if_neg ht]
      repeat rw [applyWrites_append]
      simp only [applyWrites_single3, applyWrites_hFill, applyWrites_vFillN, true_and,
        and_true, true_or, or_true, if_true]
      split_ifs <;> first | rfl | (exfalso; omega)
    · simp only [boxRender, boxRenderWrites, boxBuildCache]
      rw [if_neg ht]
      repeat rw [applyWrites_append]
      simp only [applyWrites_single3, applyWrites_hFill, applyWrites_vFillN, true_and,
        and_true, true_or, or_true, if_true]

/-- Closed witness for `box_corner_glyphs` at `Box(width=7, height=4,
title="Hi")`. -/
theorem box_corner_glyphs_witness :
    2 ≤ (7 : Int) ∧ 2 ≤ (4 : Int) ∧ (("Hi" : String) = "" ∨ (("Hi" : String).length : Int) ≤ 7 - 1) ∧
    (boxRender cfg0 "Hi" b0 5 6 7 4 5 6
        = ⟨cfg0.boxTopLeftCorner, cfg0.borderBgColor, some cfg0.borderFgColor⟩ ∧
    boxRender cfg0 "Hi" b0 5 6 7 4 5 (6 + 7 - 1)
        = ⟨cfg0.boxTopRightCorner, cfg0.borderBgColor, some cfg0.borderFgColor⟩ ∧
    boxRender cfg0 "Hi" b0 5 6 7 4 (5 + 4 - 1) 6
        = ⟨cfg0.boxBottomLeftCorner, cfg0.borderBgColor, some cfg0.borderFgColor⟩ ∧
    boxRender cfg0 "Hi" b0 5 6 7 4 (5 + 4 - 1) (6 + 7 - 1)
        = ⟨cfg0.boxBottomRightCorner, cfg0.borderBgColor, some cfg0.borderFgColor⟩) :=
  ⟨by norm_num, by norm_num, Or.inr (by decide),
    box_corner_glyphs cfg0 "Hi" b0 5 6 7 4 (by norm_num) (by norm_num) (Or.inr (by decide))⟩

/-- C10 counterexample: for `Box(width=2, height=2, title="ab")` (title
longer than the width) the title render starts at
`column + 1 + int(2/2 - 1 - 2/2) = column - 1 + 0 = column`, covering the
top-left corner cell after it was written, so the glyph configured as
`box_top_left_corner` does not appear at `(row, column)`: the cell holds
the title character `a` instead. -/
theorem box_corner_glyphs_counterexample :
    boxRender cfg0 "ab" b0 0 0 2 2 0 0
        = ⟨"a", cfg0.borderBgColor, some cfg0.borderFgColor⟩ ∧
    boxRender cfg0 "ab" b0 0 0 2 2 0 0
        ≠ ⟨cfg0.boxTopLeftCorner, cfg0.borderBgColor, some cfg0.borderFgColor⟩ := by
  decide

theorem pbRenderWrites_length_pos (s : PBState) (row column : Int) (hw : 0 < s.width) :
    0 < (pbRenderWrites s row column).length := by
  rw [pbRenderWrites, List.length_append, hFill_length, hFill_length]
  omega

theorem pdWrites_ne_nil (s : PDState) (c : PDCache) (row column : Int)
    (hw : 0 < c.pb.width) : pdWrites s c row column ≠ [] := by
  intro hnil
  have h := congrArg List.length hnil
  simp only [pdWrites, List.length_append, List.length_nil] at h
  have hpb := pbRenderWrites_length_pos c.pb
    (row + 1 + (if s.config.borderlessDialog then (0 : Int) else 1))
    (column + (if s.config.borderlessDialog then (0 : Int) else 1)) hw
  omega

theorem pdBuildCache_fst_fix (s : PDState) : pdBuildCache (pdBuildCache s).1 = pdBuildCache s := by
  by_cases h : s.adaptiveWidth ∧ s.width ≠ (s.label.length : Int)
  · simp only [pdBuildCache, if_pos h]
    simp
  · simp only [pdBuildCache, if_neg h]

/-- C2 (amended): once `value == maximum` with destroy-on-complete enabled
(and the destroy flag not yet set), the next `render_to_buffer` call does
NOT issue a delete request: it draws all its cells normally and only arms
the private destroy flag at the end; the render call after that one
issues the delete request to the owning display surface but still draws
its cells — a further draw does occur. -/
theorem progressDialog_destroy_sequence (s : PDState) (c : PDCache) (row column : Int)
    (hdc : s.destroyOnComplete = true) (hvm : s.value = s.maximum)
    (hd : s.destroy = false) (hm : ¬ c.pb.maximum = 0) (hw : 0 < c.pb.width) :
    pdRenderToBuffer s c row column
        = .ok ({ s with destroy := true }, [], pdWrites s c row column) ∧
    pdWrites s c row column ≠ [] ∧
    pdRenderToBuffer { s with destroy := true } c row column
        = .ok ({ s with destroy := true }, [(row, column)],
            pdWrites { s with destroy := true } c row column) ∧
    pdWrites { s with destroy := true } c row column ≠ [] := by
  refine ⟨?_, pdWrites_ne_nil s c row column hw, ?_,
    pdWrites_ne_nil { s with destroy := true } c row column hw⟩
  · rw [pdRenderToBuffer, if_neg hm, if_pos ⟨hdc, hvm⟩, if_neg (by simp [hd])]
  · rw [pdRenderToBuffer, if_neg hm]
    have h1 : ({ s with destroy := true } : PDState).destroyOnComplete = true ∧
        ({ s with destroy := true } : PDState).value
          = ({ s with destroy := true } : PDState).maximum := ⟨hdc, hvm⟩
    rw [if_pos h1, if_pos rfl]

/-- Closed witness for `progressDialog_destroy_sequence` at a completed
dialog (`value = maximum = 5`). -/
theorem progressDialog_destroy_sequence_witness :
    (pdInit "ab" 5 5 2 "#" "_" true true cfg0).1.destroyOnComplete = true ∧
    (pdInit "ab" 5 5 2 "#" "_" true true cfg0).1.value
      = (pdInit "ab" 5 5 2 "#" "_" true true cfg0).1.maximum ∧
    (pdInit "ab" 5 5 2 "#" "_" true true cfg0).1.destroy = false ∧
    ¬ (pdInit "ab" 5 5 2 "#" "_" true true cfg0).2.pb.maximum = 0 ∧
    0 < (pdInit "ab" 5 5 2 "#" "_" true true cfg0).2.pb.width ∧
    (pdRenderToBuffer (pdInit "ab" 5 5 2 "#" "_" true true cfg0).1
        (pdInit "ab" 5 5 2 "#" "_" true true cfg0).2 0 0
      = .ok ({ (pdInit "ab" 5 5 2 "#" "_" true true cfg0).1 with destroy := true }, [],
          pdWrites (pdInit "ab" 5 5 2 "#" "_" true true cfg0).1
            (pdInit "ab" 5 5 2 "#" "_" true true cfg0).2 0 0) ∧
    pdWrites (pdInit "ab" 5 5 2 "#" "_" true true cfg0).1
        (pdInit "ab" 5 5 2 "#" "_" true true cfg0).2 0 0 ≠ [] ∧
    pdRenderToBuffer { (pdInit "ab" 5 5 2 "#" "_" true true cfg0).1 with destroy := true }
        (pdInit "ab" 5 5 2 "#" "_" true true cfg0).2 0 0
      = .ok ({ (pdInit "ab" 5 5 2 "#" "_" true true cfg0).1 with destroy := true }, [(0, 0)],
          pdWrites { (pdInit "ab" 5 5 2 "#" "_" true true cfg0).1 with destroy := true }
            (pdInit "ab" 5 5 2 "#" "_" true true cfg0).2 0 0) ∧
    pdWrites { (pdInit "ab" 5 5 2 "#" "_" true true cfg0).1 with destroy := true }
        (pdInit "ab" 5 5 2 "#" "_" true true cfg0).2 0 0 ≠ []) :=
  ⟨by decide, by decide, by decide, by decide, by decide,
    progressDialog_destroy_sequence _ _ 0 0 (by decide) (by decide) (by decide) (by decide)
      (by decide)⟩

/-- C2 counterexample: for a completed `ProgressDialog`
(`value = maximum = 5`, destroy-on-complete enabled), the next
`render_to_buffer` call issues no delete request (the delete list is
empty) and does draw cells (the write list is nonempty), contradicting
"issues a delete request instead of drawing any cells". -/
theorem progressDialog_completed_render_counterexample :
    pdRenderToBuffer (pdInit "ab" 5 5 2 "#" "_" true true cfg0).1
        (pdInit "ab" 5 5 2 "#" "_" true true cfg0).2 0 0
      = .ok ({ (pdInit "ab" 5 5 2 "#" "_" true true cfg0).1 with destroy := true }, [],
          pdWrites (pdInit "ab" 5 5 2 "#" "_" true true cfg0).1
            (pdInit "ab" 5 5 2 "#" "_" true true cfg0).2 0 0) ∧
    pdWrites (pdInit "ab" 5 5 2 "#" "_" true true cfg0).1
        (pdInit "ab" 5 5 2 "#" "_" true true cfg0).2 0 0 ≠ [] :=
  ⟨rfl, by decide⟩

theorem pdConsistent_after_buildCache (s : PDState) :
    pdConsistent (pdBuildCache s).1 (pdBuildCache s).2 := by
  rw [pdConsistent, pdBuildCache_fst_fix]

theorem pdConsistent_valueSet (s : PDState) (c : PDCache) (v : Int)
    (h : pdConsistent s c) :
    pdConsistent { s with value := v } { c with pb := { c.pb with value := v } } := by
  have hc : ¬(s.adaptiveWidth ∧ s.width ≠ (s.label.length : Int)) := by
    intro hcond
    have h1 : (pdBuildCache s).1 = s := by rw [h]
    rw [pdBuildCache] at h1
    simp only [if_pos hcond] at h1
    have h2 := congrArg PDState.width h1
    simp at h2
    exact hcond.2 h2.symm
  have hsnd : (pdBuildCache s).2 = c := by rw [h]
  rw [pdBuildCache] at hsnd
  simp only [if_neg hc] at hsnd
  rw [pdConsistent, pdBuildCache, ← hsnd]
  simp [if_neg hc, pbInit, pbBuildCache]

/-- C5 (amended): the `label` and `maximum` setters each perform a full
cache rebuild and issue a re-render request before returning; the `value`
setter performs NO full cache rebuild — it only assigns the cached
progress bar's `value` (whose own setter issues a re-render request) and
then issues the dialog's re-render request. Provided the cache was
consistent with the public properties before the call, it is consistent
again immediately after any of the three setters returns. -/
theorem progressDialog_mutator_effects (s : PDState) (c : PDCache) (lv : String) (v m : Int)
    (hcons : pdConsistent s c) :
    (pdLabelSet s c lv).2.2 = [.cacheRebuild, .renderRequest] ∧
    (pdMaximumSet s c m).2.2 = [.cacheRebuild, .renderRequest] ∧
    (pdValueSet s c v).2.2 = [.renderRequest, .renderRequest] ∧
    Effect.cacheRebuild ∉ (pdValueSet s c v).2.2 ∧
    pdConsistent (pdLabelSet s c lv).1 (pdLabelSet s c lv).2.1 ∧
    pdConsistent (pdMaximumSet s c m).1 (pdMaximumSet s c m).2.1 ∧
    pdConsistent (pdValueSet s c v).1 (pdValueSet s c v).2.1 :=
  ⟨rfl, rfl, rfl, by simp [pdValueSet, pbValueSet],
    pdConsistent_after_buildCache _, pdConsistent_after_buildCache _,
    pdConsistent_valueSet s c v hcons⟩

/-- Closed witness for `progressDialog_mutator_effects`. -/
theorem progressDialog_mutator_effects_witness :
    pdConsistent (pdInit "ab" 0 9 2 "#" "_" true true cfg0).1
      (pdInit "ab" 0 9 2 "#" "_" true true cfg0).2 ∧
    ((pdLabelSet (pdInit "ab" 0 9 2 "#" "_" true true cfg0).1
        (pdInit "ab" 0 9 2 "#" "_" true true cfg0).2 "xyz").2.2
      = [.cacheRebuild, .renderRequest] ∧
    (pdMaximumSet (pdInit "ab" 0 9 2 "#" "_" true true cfg0).1
        (pdInit "ab" 0 9 2 "#" "_" true true cfg0).2 4).2.2
      = [.cacheRebuild, .renderRequest] ∧
    (pdValueSet (pdInit "ab" 0 9 2 "#" "_" true true cfg0).1
        (pdInit "ab" 0 9 2 "#" "_" true true cfg0).2 7).2.2
      = [.renderRequest, .renderRequest] ∧
    Effect.cacheRebuild ∉ (pdValueSet (pdInit "ab" 0 9 2 "#" "_" true true cfg0).1
        (pdInit "ab" 0 9 2 "#" "_" true true cfg0).2 7).2.2 ∧
    pdConsistent (pdLabelSet (pdInit "ab" 0 9 2 "#" "_" true true cfg0).1
        (pdInit "ab" 0 9 2 "#" "_" true true cfg0).2 "xyz").1
      (pdLabelSet (pdInit "ab" 0 9 2 "#" "_" true true cfg0).1
        (pdInit "ab" 0 9 2 "#" "_" true true cfg0).2 "xyz").2.1 ∧
    pdConsistent (pdMaximumSet (pdInit "ab" 0 9 2 "#" "_" true true cfg0).1
        (pdInit "ab" 0 9 2 "#" "_" true true cfg0).2 4).1
      (pdMaximumSet (pdInit "ab" 0 9 2 "#" "_" true true cfg0).1
        (pdInit "ab" 0 9 2 "#" "_" true true cfg0).2 4).2.1 ∧
    pdConsistent (pdValueSet (pdInit "ab" 0 9 2 "#" "_" true true cfg0).1
        (pdInit "ab" 0 9 2 "#" "_" true true cfg0).2 7).1
      (pdValueSet (pdInit "ab" 0 9 2 "#" "_" true true cfg0).1
        (pdInit "ab" 0 9 2 "#" "_" true true cfg0).2 7).2.1) :=
  ⟨by decide,
    progressDialog_mutator_effects (pdInit "ab" 0 9 2 "#" "_" true true cfg0).1
      (pdInit "ab" 0 9 2 "#" "_" true true cfg0).2 "xyz" 7 4 (by decide)⟩

/-- C5 counterexample: the `value` setter of `ProgressDialog` issues two
re-render requests (one from the nested `ProgressBar.value` assignment,
one of its own) but never calls `_build_cache`: its effect trace contains
no full cache rebuild, contradicting "every mutator among label, value,
and maximum performs a full cache rebuild". -/
theorem progressDialog_value_setter_counterexample :
    (pdValueSet (pdInit "ab" 0 9 2 "#" "_" true true cfg0).1
        (pdInit "ab" 0 9 2 "#" "_" true true cfg0).2 7).2.2
      = [Effect.renderRequest, Effect.renderRequest] ∧
    Effect.cacheRebuild ∉ (pdValueSet (pdInit "ab" 0 9 2 "#" "_" true true cfg0).1
        (pdInit "ab" 0 9 2 "#" "_" true true cfg0).2 7).2.2 := by
  decide

/-- C6: with empty default and the printable filter, `show()` fed
`['a','b','c', Backspace, Enter]` returns the committed string `"ab"`;
in general, an accepted character key appends to the buffer, Backspace
drops the last character (`"".dropRight 1 = ""`, so a no-op on an empty
buffer), and Enter terminates the loop returning the accumulated
buffer. -/
theorem lineInput_show_behavior :
    liShow .printable "" [.char 'a', .char 'b', .char 'c', .backspace, .enter] = some "ab" ∧
    (∀ (f : InputFilter) (buf : String) (ks : List Key) (c : Char),
      keyAccepted f c = true → liShow f buf (.char c :: ks) = liShow f (buf.push c) ks) ∧
    (∀ (f : InputFilter) (buf : String) (ks : List Key),
      liShow f buf (.backspace :: ks) = liShow f (buf.dropRight 1) ks) ∧
    ("" : String).dropRight 1 = "" ∧
    (∀ (f : InputFilter) (buf : String) (ks : List Key),
      liShow f buf (.enter :: ks) = some buf) := by
  refine ⟨by decide, ?_, fun f buf ks => rfl, by decide, fun f buf ks => rfl⟩
  intro f buf ks c hc
  simp [liShow, hc]

/-- Closed witness for `lineInput_show_behavior`'s conditional conjunct. -/
theorem lineInput_show_behavior_witness :
    keyAccepted .printable 'q' = true ∧
    liShow .printable "ab" [Key.char 'q', Key.enter]
      = liShow .printable ("ab".push 'q') [Key.enter] :=
  ⟨by decide, lineInput_show_behavior.2.1 .printable "ab" [Key.enter] 'q' (by decide)⟩

theorem map_meta_set (fields : List MField) (cur : Nat) (f g : MField)
    (hget : fields.get? cur = some f)
    (hmeta : (g.label, g.defaultText, g.filter) = (f.label, f.defaultText, f.filter)) :
    (fields.set cur g).map (fun x => (x.label, x.defaultText, x.filter))
      = fields.map (fun x => (x.label, x.defaultText, x.filter)) := by
  induction fields generalizing cur with
  | nil => simp at hget
  | cons a l ih =>
    cases cur with
    | zero =>
      simp only [List.get?] at hget
      injection hget with hget
      subst hget
      simp only [List.set, List.map]
      rw [hmeta]
    | succ n =>
      simp only [List.get?] at hget
      simp only [List.set, List.map]
      rw [ih n hget]

theorem mlShow_escape_clears (ks : List Key) (fields : List MField) (cur : Nat)
    (rest : List Key) (hcur : cur < fields.length) (hne : Key.enter ∉ ks) :
    ∃ res : List MField,
      mlShow fields cur (ks ++ Key.escape :: rest) = .returned res ∧
      res.length = fields.length ∧
      (∀ f ∈ res, f.userInput = "") ∧
      res.map (fun x => (x.label, x.defaultText, x.filter))
        = fields.map (fun x => (x.label, x.defaultText, x.filter)) := by
  induction ks generalizing fields cur with
  | nil =>
    refine ⟨fields.map (fun f => { f with userInput := "" }), ?_, by simp, ?_, ?_⟩
    · simp only [List.nil_append, mlShow]
    · intro f hf
      rcases List.mem_map.1 hf with ⟨g, _, rfl⟩
      rfl
    · rw [List.map_map]
      rfl
  | cons k ks ih =>
    have hne' : Key.enter ∉ ks := fun h => hne (List.mem_cons_of_mem _ h)
    have hkne : k ≠ Key.enter := fun h => hne (h ▸ List.mem_cons_self _ _)
    have hlen0 : fields.length ≠ 0 := by omega
    cases k with
    | enter => exact absurd rfl hkne
    | escape =>
      refine ⟨fields.map (fun f => { f with userInput := "" }), ?_, by simp, ?_, ?_⟩
      · simp only [List.cons_append, mlShow]
      · intro f hf
        rcases List.mem_map.1 hf with ⟨g, _, rfl⟩
        rfl
      · rw [List.map_map]
        rfl
    | tab =>
      simp only [List.cons_append, mlShow, if_neg hlen0]
      exact ih fields ((cur + 1) % fields.length) (Nat.mod_lt _ (by omega)) hne'
    | backspace =>
      have hget : fields.get? cur = some (fields.get ⟨cur, hcur⟩) := List.get?_eq_get hcur
      simp only [List.cons_append, mlShow, hget]
      obtain ⟨res, h1, h2, h3, h4⟩ := ih
        (fields.set cur
          { fields.get ⟨cur, hcur⟩ with
            userInput := (fields.get ⟨cur, hcur⟩).userInput.dropRight 1 })
        cur (by simpa using hcur) hne'
      refine ⟨res, h1, by rw [h2]; simp, h3, ?_⟩
      rw [h4]
      exact map_meta_set fields cur _ _ hget rfl
    | delete =>
      have hget : fields.get? cur = some (fields.get ⟨cur, hcur⟩) := List.get?_eq_get hcur
      simp only [List.cons_append, mlShow, hget]
      obtain ⟨res, h1, h2, h3, h4⟩ := ih
        (fields.set cur
          { fields.get ⟨cur, hcur⟩ with
            userInput := (fields.get ⟨cur, hcur⟩).userInput.dropRight 1 })
        cur (by simpa using hcur) hne'
      refine ⟨res, h1, by rw [h2]; simp, h3, ?_⟩
      rw [h4]
      exact map_meta_set fields cur _ _ hget rfl
    | char c =>
      have hget : fields.get? cur = some (fields.get ⟨cur, hcur⟩) := List.get?_eq_get hcur
      simp only [List.cons_append, mlShow, hget]
      by_cases hacc : keyAccepted (fields.get ⟨cur, hcur⟩).filter c = true
      · rw [if_pos hacc]
        obtain ⟨res, h1, h2, h3, h4⟩ := ih
          (fields.set cur
            { fields.get ⟨cur, hcur⟩ with
              userInput := (fields.get ⟨cur, hcur⟩).userInput.push c })
          cur (by simpa using hcur) hne'
        refine ⟨res, h1, by rw [h2]; simp, h3, ?_⟩
        rw [h4]
        exact map_meta_set fields cur _ _ hget rfl
      · rw [if_neg hacc]
        exact ih fields cur hcur hne'
    | noKey =>
      simp only [List.cons_append, mlShow]
      exact ih fields cur hcur hne'

/-- C7: for every `MultiLineInputDialog` with at least one field (the
current-field index starts at 0), whatever editing keys precede it
(anything but Enter), pressing Escape terminates the loop and returns the
field collection with every field's `user_input` buffer cleared to the
empty string — not just the current field's — while every field's label,
default and filter are preserved. -/
theorem multiLineInput_escape_clears_all (fields : List MField) (ks rest : List Key)
    (hn : 0 < fields.length) (hne : Key.enter ∉ ks) :
    ∃ res : List MField,
      mlShow fields 0 (ks ++ Key.escape :: rest) = .returned res ∧
      res.length = fields.length ∧
      (∀ f ∈ res, f.userInput = "") ∧
      res.map (fun x => (x.label, x.defaultText, x.filter))
        = fields.map (fun x => (x.label, x.defaultText, x.filter)) :=
  mlShow_escape_clears ks fields 0 rest hn hne

/-- Closed witness for `multiLineInput_escape_clears_all`: three fields,
with an accepted edit and a Tab before the Escape. -/
theorem multiLineInput_escape_clears_all_witness :
    0 < ([mFieldInit "A" "" .printable, mFieldInit "B" "5" .integer,
      mFieldInit "C" "x" .printable] : List MField).length ∧
    Key.enter ∉ ([Key.char 'q', Key.tab, Key.char '7'] : List Key) ∧
    ∃ res : List MField,
      mlShow [mFieldInit "A" "" .printable, mFieldInit "B" "5" .integer,
          mFieldInit "C" "x" .printable] 0
          ([Key.char 'q', Key.tab, Key.char '7'] ++ Key.escape :: [Key.char 'z'])
        = .returned res ∧
      res.length = ([mFieldInit "A" "" .printable, mFieldInit "B" "5" .integer,
        mFieldInit "C" "x" .printable] : List MField).length ∧
      (∀ f ∈ res, f.userInput = "") ∧
      res.map (fun x => (x.label, x.defaultText, x.filter))
        = ([mFieldInit "A" "" .printable, mFieldInit "B" "5" .integer,
            mFieldInit "C" "x" .printable] : List MField).map
            (fun x => (x.label, x.defaultText, x.filter)) :=
  ⟨by decide, by decide,
    multiLineInput_escape_clears_all
      [mFieldInit "A" "" .printable, mFieldInit "B" "5" .integer,
        mFieldInit "C" "x" .printable]
      [Key.char 'q', Key.tab, Key.char '7'] [Key.char 'z'] (by decide) (by decide)⟩
